import Mathlib

/-!
Verification of the buffered, time-ordered message-iteration pipeline of
`ldeditor-lite`.

The development shallowly embeds two components:

* `BufferedIterableSource` (producer/consumer read-ahead engine,
  `src/unnamed/part_010`): modelled as an explicit cooperative transition
  system.  Each transition corresponds to one atomic run of a task between
  two suspension points (awaits on the source iterator, on
  `writeSignal.wait()` / `readSignal.wait()`, and the generator's `yield`).
  Condition-variable notifications wake a task only if it is currently
  suspended on that condition variable (a notify with no waiter is lost),
  exactly as the `Condvar` used by the source behaves.

* `CachedFilelike` (byte-range reader with caching and reconnection,
  embedded in `src/packages/studio-base/src/hooks/useInitialDeepLinkState.test.tsx`
  lines 166-506): the `read` entry validation, the `open` buffer sizing and
  the stream `error`/`data` handlers are modelled as pure functions of the
  relevant fields of the object state.
-/

namespace LdSpec

/-! ## Time (the rostime `Time` value: `{ sec, nsec }`) -/

/-- `Time` from `@foxglove/rostime`: a `sec`/`nsec` pair, compared
lexicographically. -/
structure RosTime where
  sec : Nat
  nsec : Nat
deriving DecidableEq, Repr

/-- rostime `compare(a, b)`: positive iff `a` is later, negative iff earlier,
working on the seconds first and the nanoseconds as tie break. -/
def RosTime.cmp (a b : RosTime) : Int :=
  if a.sec ≠ b.sec then (a.sec : Int) - (b.sec : Int)
  else (a.nsec : Int) - (b.nsec : Int)

/-- Lexicographic order on `RosTime`, the order `RosTime.cmp` decides. -/
def RosTime.le (a b : RosTime) : Prop :=
  a.sec < b.sec ∨ (a.sec = b.sec ∧ a.nsec ≤ b.nsec)

instance : DecidablePred fun p : RosTime × RosTime => RosTime.le p.1 p.2 := by
  intro p; unfold RosTime.le; infer_instance

instance (a b : RosTime) : Decidable (RosTime.le a b) := by
  unfold RosTime.le; infer_instance

/-- rostime `add(a, b)`: componentwise sum with a nanosecond carry
(`fixTime`).  For well-formed inputs (`nsec < 1e9`) at most one carry is
needed. -/
def addTime (a b : RosTime) : RosTime :=
  let sec := a.sec + b.sec
  let nsec := a.nsec + b.nsec
  if nsec ≥ 1000000000 then ⟨sec + 1, nsec - 1000000000⟩ else ⟨sec, nsec⟩

/-- rostime `clampTime(time, start, end)`. -/
def clampTime (t lo hi : RosTime) : RosTime :=
  if RosTime.cmp t lo < 0 then lo
  else if RosTime.cmp t hi > 0 then hi
  else t

theorem cmp_nonneg_iff (a b : RosTime) : 0 ≤ RosTime.cmp a b ↔ RosTime.le b a := by
  unfold RosTime.cmp RosTime.le
  split
  · next h => omega
  · next h => omega

theorem cmp_nonpos_iff (a b : RosTime) : RosTime.cmp a b ≤ 0 ↔ RosTime.le a b := by
  unfold RosTime.cmp RosTime.le
  split
  · next h => omega
  · next h => omega

theorem RosTime.le_refl (a : RosTime) : RosTime.le a a := by
  unfold RosTime.le; right; exact ⟨rfl, Nat.le_refl _⟩

theorem RosTime.le_trans {a b c : RosTime} (h1 : RosTime.le a b) (h2 : RosTime.le b c) :
    RosTime.le a c := by
  unfold RosTime.le at *
  rcases h1 with h1 | ⟨h1, h1n⟩ <;> rcases h2 with h2 | ⟨h2, h2n⟩
  · left; omega
  · left; omega
  · left; omega
  · right; exact ⟨h1.trans h2, h1n.trans h2n⟩

/-! ## IteratorResult

Modelled from the spec: the `IteratorResult` tagged union declared in
`IIterableSource.ts` is not among the provided sources (only its consumer
`BufferedIterableSource` is); per the spec's data model it is a union of a
`message-event` carrying a `receiveTime` and a `stamp` carrying a time.
Message payload, topic and size do not influence the buffering logic; an
`id` field stands for the identity of the message payload so that distinct
messages with equal times can be told apart. -/

/-- One result of a message iterator: a decoded message (`message-event`,
identified by its receive time and an abstract payload id) or a heartbeat
(`stamp`). -/
inductive IterResult where
  | msgEvent (receiveTime : RosTime) (id : Nat)
  | stamp (t : RosTime)
deriving DecidableEq, Repr

/-- The time carried by a result: `msgEvent.receiveTime` or `stamp`. -/
def IterResult.time : IterResult → RosTime
  | .msgEvent t _ => t
  | .stamp t => t

/-- Time order on results, via `IterResult.time`. -/
def resLE (a b : IterResult) : Prop := RosTime.le a.time b.time

instance (a b : IterResult) : Decidable (resLE a b) := by
  unfold resLE; infer_instance

/-! ## BufferedIterableSource: the producer/consumer transition system

State of `BufferedIterableSource` during one `messageIterator` session
(`src/unnamed/part_010`, lines 38-247).  Ghost fields (`pulled`,
`enqueued`, `consumed`, `dequeues`) record history and do not influence
any transition. -/

/-- Program counter of the producer task (`startProducer`).  `awaitNext`:
suspended on the source iterator's `next()` (the `for await` head,
line 106); `stampWait st`: suspended on `writeSignal.wait()` inside the
stamp-horizon loop (line 125) holding the stamp result `st`;
`batchWait`: suspended on `writeSignal.wait()` after enqueueing past the
horizon (line 150); `done`: the producer promise has settled (the
`finally` at lines 152-156 has run). -/
inductive ProdPC where
  | awaitNext
  | stampWait (st : RosTime)
  | batchWait
  | done
deriving DecidableEq, Repr

/-- Program counter of the consumer generator
(`bufferedIterableGenerator`, lines 208-246).  `running`: at the loop head
(equivalently, the caller is about to drive the next `next()`);
`readWait`: suspended on `readSignal.wait()` (line 222); `stopping`: in the
`finally`, awaiting `stopProducer()` (line 244); `finished`: the generator
has completed and `stopProducer()` has resolved. -/
inductive ConsPC where
  | running
  | readWait
  | stopping
  | finished
deriving DecidableEq, Repr

/-- Whether the producer is suspended on `writeSignal.wait()`. -/
def ProdPC.waiting : ProdPC → Bool
  | .stampWait _ => true
  | .batchWait => true
  | _ => false

/-- The shared state of one `messageIterator` session. -/
structure BuffState where
  /-- Results the underlying (caching) source has yet to emit. -/
  source : List IterResult
  /-- Whether, after `source` is exhausted, the source iterator throws
  instead of finishing (models a producer-side exception). -/
  sourceThrows : Bool
  /-- The shared FIFO `cache` queue (`VecQueue`), front first. -/
  cache : List IterResult
  /-- `this.readHead`. -/
  readHead : RosTime
  /-- `this.readDone`. -/
  readDone : Bool
  /-- `this.aborted`. -/
  aborted : Bool
  prodPC : ProdPC
  consPC : ConsPC
  /-- The producer is suspended on `writeSignal` and a
  `writeSignal.notifyAll()` has happened since it began waiting. -/
  prodWoken : Bool
  /-- The consumer is suspended on `readSignal` and a
  `readSignal.notifyAll()` has happened since it began waiting. -/
  consWoken : Bool
  /-- Ghost: results pulled from the source so far, in order. -/
  pulled : List IterResult
  /-- Ghost: results enqueued into `cache` so far, in order. -/
  enqueued : List IterResult
  /-- Ghost: results dequeued and yielded to the caller so far, in order. -/
  consumed : List IterResult
  /-- Ghost: number of consumer dequeues. -/
  dequeues : Nat
deriving DecidableEq, Repr

/-- `this.cache.enqueue(result)` followed by `this.readSignal.notifyAll()`:
appends to the queue and wakes the consumer if it is waiting. -/
def enqueueNotify (r : IterResult) (s : BuffState) : BuffState :=
  { s with
    cache := s.cache ++ [r]
    enqueued := s.enqueued ++ [r]
    consWoken := s.consWoken || (s.consPC == ConsPC.readWait) }

/-- The `finally` block of `startProducer` (lines 152-156):
`readSignal.notifyAll(); readDone = true`, after which the producer promise
settles. -/
def producerFinally (s : BuffState) : BuffState :=
  { s with
    readDone := true
    prodPC := ProdPC.done
    consWoken := s.consWoken || (s.consPC == ConsPC.readWait) }

/-- One atomic run of the producer task (`startProducer`, lines 106-156)
between suspension points, parametrised by `readAheadDuration`.  `none`
when the producer cannot run (suspended without a pending notification, or
already done). -/
def producerStep (dur : RosTime) (s : BuffState) : Option BuffState :=
  match s.prodPC with
  | ProdPC.awaitNext =>
    match s.source with
    | [] =>
      -- the `for await` head sees the iterator finish (or throw, when
      -- `sourceThrows`): either way control leaves the loop through the
      -- same `finally`.
      some (producerFinally s)
    | r :: rest =>
      let s1 := { s with source := rest, pulled := s.pulled ++ [r] }
      if s1.aborted then
        -- line 107-109: `if (this.aborted) return;` (through the finally)
        some (producerFinally s1)
      else
        -- line 115: readUntil = addTime(this.readHead, this.readAheadDuration)
        let readUntil := addTime s1.readHead dur
        match r with
        | IterResult.stamp st =>
          if 0 ≤ RosTime.cmp st readUntil then
            -- lines 118-127: enqueue the stamp, notify, block on writeSignal
            some { enqueueNotify r s1 with prodPC := ProdPC.stampWait st }
          else
            -- lines 131-150: enqueue, notify; a stamp is not a
            -- message-event, and the cache is non-empty, so block.
            if (enqueueNotify r s1).cache.isEmpty then
              some { enqueueNotify r s1 with prodPC := ProdPC.awaitNext }
            else
              some { enqueueNotify r s1 with prodPC := ProdPC.batchWait }
        | IterResult.msgEvent t _ =>
          -- lines 131-150: enqueue, notify; keep reading while within the
          -- horizon, otherwise block on writeSignal.
          if RosTime.cmp t readUntil ≤ 0 then
            some { enqueueNotify r s1 with prodPC := ProdPC.awaitNext }
          else if (enqueueNotify r s1).cache.isEmpty then
            some { enqueueNotify r s1 with prodPC := ProdPC.awaitNext }
          else
            some { enqueueNotify r s1 with prodPC := ProdPC.batchWait }
  | ProdPC.stampWait st =>
    if s.prodWoken then
      -- line 125-126 resume: recompute readUntil from the (possibly
      -- advanced) readHead, then re-test the while condition.
      let s1 := { s with prodWoken := false }
      let readUntil := addTime s1.readHead dur
      if 0 ≤ RosTime.cmp st readUntil then
        some { enqueueNotify (IterResult.stamp st) s1 with prodPC := ProdPC.stampWait st }
      else
        some { s1 with prodPC := ProdPC.awaitNext }
    else none
  | ProdPC.batchWait =>
    if s.prodWoken then
      some { s with prodWoken := false, prodPC := ProdPC.awaitNext }
    else none
  | ProdPC.done => none

/-- One atomic run of the consumer generator (lines 214-241) between
suspension points.  A `running` step is one `next()` call by the caller:
dequeue; on empty cache either finish (when `readDone`) or suspend on
`readSignal`; otherwise advance `readHead`, `writeSignal.notifyAll()`, and
yield the item. -/
def consumerStep (s : BuffState) : Option BuffState :=
  match s.consPC with
  | ConsPC.running =>
    match s.cache with
    | [] =>
      if s.readDone then
        -- line 217-219 `break`, then the finally (line 242-245) calls
        -- `stopProducer()`: aborted = true, writeSignal.notifyAll().
        some { s with
          consPC := ConsPC.stopping
          aborted := true
          prodWoken := s.prodWoken || s.prodPC.waiting }
      else
        some { s with consPC := ConsPC.readWait }
    | item :: rest =>
      let rh := match item with
        | IterResult.stamp st => st
        | IterResult.msgEvent t _ => t
      some { s with
        cache := rest
        readHead := rh
        consumed := s.consumed ++ [item]
        dequeues := s.dequeues + 1
        prodWoken := s.prodWoken || s.prodPC.waiting
        consPC := ConsPC.running }
  | ConsPC.readWait =>
    if s.consWoken then
      some { s with consWoken := false, consPC := ConsPC.running }
    else none
  | _ => none

/-- The caller abandons the iterator (`break` / `return()` on the
generator) instead of calling `next()`: the generator's `finally` runs
`stopProducer()` — aborted = true, `writeSignal.notifyAll()`, then an await
of the producer promise. -/
def breakStep (s : BuffState) : Option BuffState :=
  if s.consPC = ConsPC.running then
    some { s with
      consPC := ConsPC.stopping
      aborted := true
      prodWoken := s.prodWoken || s.prodPC.waiting }
  else none

/-- `stopProducer()`'s `await this.producer` resolves (only once the
producer task has settled); afterwards `this.producer = undefined`. -/
def stopDoneStep (s : BuffState) : Option BuffState :=
  if s.consPC = ConsPC.stopping ∧ s.prodPC = ProdPC.done then
    some { s with consPC := ConsPC.finished }
  else none

/-- Scheduling labels: which task runs next. -/
inductive Act where
  | prod
  | cons
  | brk
  | stopDone
deriving DecidableEq, Repr

/-- Dispatch one scheduled atomic step. -/
def stepAct (dur : RosTime) (a : Act) (s : BuffState) : Option BuffState :=
  match a with
  | Act.prod => producerStep dur s
  | Act.cons => consumerStep s
  | Act.brk => breakStep s
  | Act.stopDone => stopDoneStep s

/-- Run a schedule (a list of labels); `none` if any step is not enabled. -/
def runActs (dur : RosTime) (acts : List Act) (s : BuffState) : Option BuffState :=
  match acts with
  | [] => some s
  | a :: rest =>
    match stepAct dur a s with
    | none => none
    | some s' => runActs dur rest s'

/-- The state right after `messageIterator(args)` returned (lines 188-197
plus the synchronous prefix of `startProducer`, lines 80-96, for a
non-empty topic list): `readHead = start`, flags cleared, cache cleared,
producer suspended on its first source pull, consumer at its loop head. -/
def initState (start : RosTime) (src : List IterResult) (sourceThrows : Bool) : BuffState :=
  { source := src
    sourceThrows := sourceThrows
    cache := []
    readHead := start
    readDone := false
    aborted := false
    prodPC := ProdPC.awaitNext
    consPC := ConsPC.running
    prodWoken := false
    consWoken := false
    pulled := []
    enqueued := []
    consumed := []
    dequeues := 0 }

/-- Reachability under arbitrary schedules. -/
inductive Reachable (dur : RosTime) (init : BuffState) : BuffState → Prop where
  | refl : Reachable dur init init
  | step {s s' : BuffState} {a : Act} :
      Reachable dur init s → stepAct dur a s = some s' → Reachable dur init s'

theorem runActs_reachable_from (dur : RosTime) (init : BuffState) :
    ∀ (acts : List Act) (s0 s : BuffState), Reachable dur init s0 →
      runActs dur acts s0 = some s → Reachable dur init s := by
  intro acts
  induction acts with
  | nil =>
    intro s0 s h0 hrun
    simp [runActs] at hrun
    exact hrun ▸ h0
  | cons a rest ih =>
    intro s0 s h0 hrun
    rw [runActs] at hrun
    cases ha : stepAct dur a s0 with
    | none => rw [ha] at hrun; exact absurd hrun (by simp)
    | some s1 =>
      rw [ha] at hrun
      exact ih s1 s (Reachable.step h0 ha) hrun

theorem runActs_reachable (dur : RosTime) (init : BuffState)
    (acts : List Act) (s : BuffState) (h : runActs dur acts init = some s) :
    Reachable dur init s :=
  runActs_reachable_from dur init acts init s Reachable.refl h

/-! ## BufferedIterableSource.messageIterator entry guards

Lines 177-197: the synchronous part of `messageIterator`, before the
generator is returned. -/

/-- What `messageIterator` does synchronously: throw one of its two
invariant errors, or set up the session (readHead from
`args.start ?? this.initResult.start`) and return the generator. -/
inductive MessageIteratorOutcome where
  /-- `throw new Error("Invariant: uninitialized")` -/
  | errUninitialized
  /-- `throw new Error("Invariant: BufferedIterableSource allows only one messageIterator")` -/
  | errIteratorActive
  /-- returns the async generator, after `readHead := start`,
  `aborted := false`, `readDone := false`, launching the producer. -/
  | generator (start : RosTime)
deriving DecidableEq, Repr

/-- `messageIterator` guard logic (lines 180-197): `initialized` is
`this.initResult !== undefined` and `producerSet` is
`this.producer !== undefined` (the producer promise of a previous call,
cleared only by `stopProducer`). -/
def messageIteratorGuard (initialized : Bool) (producerSet : Bool)
    (argsStart : Option RosTime) (initStart : RosTime) : MessageIteratorOutcome :=
  if !initialized then MessageIteratorOutcome.errUninitialized
  else if producerSet then MessageIteratorOutcome.errIteratorActive
  else MessageIteratorOutcome.generator (argsStart.getD initStart)

/-! ## CachedFilelike

From the embedded source (`useInitialDeepLinkState.test.tsx` lines
166-506).  The object state fields that the modelled entry points read are
passed explicitly; `cacheSizeInBytes = none` models the default
`Infinity`. -/

/-- `CACHE_BLOCK_SIZE = 1024 * 1024 * 10` (10 MiB blocks). -/
def CACHE_BLOCK_SIZE : Nat := 1024 * 1024 * 10

/-- The `VirtualLRUBuffer` constructed by `CachedFilelike#open`:
either one unblocked buffer spanning the file, or a block cache. -/
inductive VirtualBufferConfig where
  /-- `new VirtualLRUBuffer({ size })` — whole file, no eviction. -/
  | whole (size : Nat)
  /-- `new VirtualLRUBuffer({ size, blockSize, numberOfBlocks })`. -/
  | blocked (size blockSize numberOfBlocks : Nat)
deriving DecidableEq, Repr

/-- `CachedFilelike#open` (lines 281-302), given the size reported by
`fileReader.open()`: if `cacheSizeInBytes >= size` use one unblocked
buffer, otherwise `ceil(cacheSizeInBytes / CACHE_BLOCK_SIZE) + 2` blocks
of `CACHE_BLOCK_SIZE` bytes.  `Math.ceil(c / b)` on naturals is
`(c + b - 1) / b`. -/
def openBuffer (cacheSizeInBytes : Option Nat) (size : Nat) : VirtualBufferConfig :=
  match cacheSizeInBytes with
  | none => VirtualBufferConfig.whole size
  | some c =>
    if size ≤ c then VirtualBufferConfig.whole size
    else VirtualBufferConfig.blocked size CACHE_BLOCK_SIZE
      ((c + CACHE_BLOCK_SIZE - 1) / CACHE_BLOCK_SIZE + 2)

/-- How a call to `CachedFilelike#read(offset, length)` resolves its
control flow (lines 314-345), in the case where `fileReader.open()`
succeeds and reports `fileSize`. -/
inductive ReadOutcome where
  /-- `return Promise.resolve(new Uint8Array())` (line 315-317). -/
  | resolveEmpty
  /-- `throw new Error("CachedFilelike#read invalid input")` (line 321-323),
  synchronous. -/
  | throwInvalidInput
  /-- `throw new Error("Requested more data than cache size ...")`
  (line 324-326), synchronous. -/
  | throwCacheSize
  /-- the returned promise is rejected with
  `new Error("CachedFilelike#read past size")` (line 333-336). -/
  | rejectPastSize
  /-- the request range is pushed onto `_readRequests` and `_updateState()`
  runs (line 338-339). -/
  | enqueueRequest
deriving DecidableEq, Repr

/-- `length > this._cacheSizeInBytes`, where `none` is `Infinity` (always
false). -/
def exceedsCache (cacheSizeInBytes : Option Nat) (length : Int) : Bool :=
  match cacheSizeInBytes with
  | none => false
  | some c => (c : Int) < length

/-- The dispatch of `CachedFilelike#read` (lines 314-345).  The zero-length
short-circuit runs first, before the negative-input and cache-budget
checks and before `open()` is awaited. -/
def readDispatch (cacheSizeInBytes : Option Nat) (fileSize : Nat)
    (offset length : Int) : ReadOutcome :=
  if length = 0 then ReadOutcome.resolveEmpty
  else if offset < 0 ∨ length < 0 then ReadOutcome.throwInvalidInput
  else if exceedsCache cacheSizeInBytes length then ReadOutcome.throwCacheSize
  else if (fileSize : Int) < offset + length then ReadOutcome.rejectPastSize
  else ReadOutcome.enqueueRequest

/-- The fields of `CachedFilelike` read by the stream `error` handler
installed in `_setConnection` (lines 402-442). -/
structure ReaderErrState where
  /-- whether `keepReconnectingCallback` was configured. -/
  keepReconnecting : Bool
  /-- `this._lastErrorTime` (epoch milliseconds). -/
  lastErrorTime : Option Int
  /-- the ranges' identities of `this._readRequests`, in order. -/
  pending : List Nat
  /-- `this._closed`. -/
  closed : Bool
deriving DecidableEq, Repr

/-- What one run of the `error` handler does. -/
structure ErrorOutcome where
  /-- `this._closed` afterwards. -/
  closed : Bool
  /-- the read requests rejected with the triggering error. -/
  rejected : List Nat
  /-- whether the handler falls through to the retry path: destroy the
  connection, drop it, and `_updateState()` (which reconnects). -/
  retried : Bool
  /-- the argument passed to `keepReconnectingCallback`, if it is called. -/
  callbackArg : Option Bool
  /-- `this._lastErrorTime` afterwards. -/
  lastErrorTime : Option Int
deriving DecidableEq, Repr

/-- The stream `error` handler of `_setConnection` (lines 402-442), `now`
being `Date.now()`.  With a `keepReconnectingCallback`: always retry, and
report `true` on the first error.  Without: a second error less than 100ms
after the previous one is fatal — set `_closed`, reject every pending read
request; otherwise fall through to the retry path, which records the error
time, destroys the connection and calls `_updateState()`. -/
def onStreamError (st : ReaderErrState) (now : Int) : ErrorOutcome :=
  if st.keepReconnecting then
    { closed := st.closed
      rejected := []
      retried := true
      callbackArg := if st.lastErrorTime = none then some true else none
      lastErrorTime := some now }
  else
    match st.lastErrorTime with
    | some t =>
      if now - t < 100 then
        { closed := true
          rejected := st.pending
          retried := false
          callbackArg := none
          lastErrorTime := some t }
      else
        { closed := st.closed
          rejected := []
          retried := true
          callbackArg := none
          lastErrorTime := some now }
    | none =>
      { closed := st.closed
        rejected := []
        retried := true
        callbackArg := none
        lastErrorTime := some now }

/-- The error-recovery part of the stream `data` handler (lines 454-461):
when data arrives after an error, `_lastErrorTime` is cleared and, with a
`keepReconnectingCallback`, the callback observes `false`.  Returns the
callback argument (if called) and the new `_lastErrorTime`. -/
def onStreamData (st : ReaderErrState) : Option Bool × Option Int :=
  match st.lastErrorTime with
  | some _ =>
    (if st.keepReconnecting then some false else none, none)
  | none => (none, none)

/-! ## Helper lemmas -/

theorem ceil_div_blockSize (c : Nat) :
    Nat.ceil ((c : ℚ) / (CACHE_BLOCK_SIZE : ℚ)) = (c + CACHE_BLOCK_SIZE - 1) / CACHE_BLOCK_SIZE := by
  unfold CACHE_BLOCK_SIZE
  norm_num
  apply Nat.le_antisymm
  · rw [Nat.ceil_le, div_le_iff₀ (by positivity)]
    have h : c ≤ ((c + 10485760 - 1) / 10485760) * 10485760 := by omega
    exact_mod_cast h
  · by_cases hc : c = 0
    · subst hc; simp
    · have h2 : ((c + 10485760 - 1) / 10485760 - 1) * 10485760 < c := by omega
      have h3 : (c + 10485760 - 1) / 10485760 - 1 < Nat.ceil ((c : ℚ) / (10485760 : ℚ)) := by
        rw [Nat.lt_ceil, lt_div_iff₀ (by positivity)]
        exact_mod_cast h2
      omega

/-! ## Claims about CachedFilelike and the messageIterator guard -/

/-- C4: `BufferedIterableSource.messageIterator` throws synchronously
exactly when called in an invalid state — before `initialize()` has
completed (`"Invariant: uninitialized"`) or while the producer of a
previous call is still set (`"Invariant: ... only one messageIterator"`);
in every other state it returns the generator (with the session's start
time `args.start ?? initResult.start`) without throwing. -/
theorem messageIterator_throws_iff (initialized producerSet : Bool)
    (argsStart : Option RosTime) (initStart : RosTime) :
    (messageIteratorGuard initialized producerSet argsStart initStart =
        MessageIteratorOutcome.errUninitialized ↔ initialized = false)
  ∧ (messageIteratorGuard initialized producerSet argsStart initStart =
        MessageIteratorOutcome.errIteratorActive ↔ (initialized = true ∧ producerSet = true))
  ∧ (messageIteratorGuard initialized producerSet argsStart initStart =
        MessageIteratorOutcome.generator (argsStart.getD initStart) ↔
        (initialized = true ∧ producerSet = false)) := by
  cases initialized <;> cases producerSet <;> simp [messageIteratorGuard]

/-- C10: a zero-length read resolves immediately with an empty array for
every offset (negative, past the file size, …): the zero-length
short-circuit runs before every validation check and before the file is
opened, so it never throws, never rejects and never touches the
`FileReader`. -/
theorem readDispatch_zeroLength (cacheSizeInBytes : Option Nat) (fileSize : Nat)
    (offset : Int) :
    readDispatch cacheSizeInBytes fileSize offset 0 = ReadOutcome.resolveEmpty := by
  simp [readDispatch]

/-- C7: for a positive length, `CachedFilelike#read` throws synchronously
on a negative offset (or negative length), throws synchronously when the
length exceeds `cacheSizeInBytes`, rejects the returned promise when
`offset + length` runs past the file size reported by `open()`, and
otherwise enqueues the request. -/
theorem readDispatch_validation (cacheSizeInBytes : Option Nat) (fileSize : Nat)
    (offset length : Int) :
    (length ≠ 0 → (offset < 0 ∨ length < 0) →
      readDispatch cacheSizeInBytes fileSize offset length = ReadOutcome.throwInvalidInput)
  ∧ (0 ≤ offset → 0 < length → exceedsCache cacheSizeInBytes length = true →
      readDispatch cacheSizeInBytes fileSize offset length = ReadOutcome.throwCacheSize)
  ∧ (0 ≤ offset → 0 < length → exceedsCache cacheSizeInBytes length = false →
      (fileSize : Int) < offset + length →
      readDispatch cacheSizeInBytes fileSize offset length = ReadOutcome.rejectPastSize)
  ∧ (0 ≤ offset → 0 < length → exceedsCache cacheSizeInBytes length = false →
      offset + length ≤ (fileSize : Int) →
      readDispatch cacheSizeInBytes fileSize offset length = ReadOutcome.enqueueRequest) := by
  refine ⟨?_, ?_, ?_, ?_⟩
  · intro h0 hneg
    simp only [readDispatch, if_neg h0, if_pos hneg]
  · intro ho hl hex
    have h0 : ¬ length = 0 := by omega
    have hneg : ¬ (offset < 0 ∨ length < 0) := by omega
    simp only [readDispatch, if_neg h0, if_neg hneg, hex, if_pos]
  · intro ho hl hex hpast
    simp only [readDispatch, if_neg (by omega : ¬ length = 0),
      if_neg (by omega : ¬ (offset < 0 ∨ length < 0)), hex, if_pos hpast]
    simp
  · intro ho hl hex hfit
    simp only [readDispatch, if_neg (by omega : ¬ length = 0),
      if_neg (by omega : ¬ (offset < 0 ∨ length < 0)), hex,
      if_neg (by omega : ¬ ((fileSize : Int) < offset + length))]
    simp

/-- C7 witness: the four branches at concrete inputs. -/
theorem readDispatch_validation_witness :
    readDispatch (some 10) 100 (-1) 5 = ReadOutcome.throwInvalidInput
  ∧ readDispatch (some 10) 100 0 11 = ReadOutcome.throwCacheSize
  ∧ readDispatch (some 100) 100 50 60 = ReadOutcome.rejectPastSize
  ∧ readDispatch (some 100) 100 0 50 = ReadOutcome.enqueueRequest :=
  ⟨(readDispatch_validation (some 10) 100 (-1) 5).1 (by decide) (Or.inl (by decide)),
   (readDispatch_validation (some 10) 100 0 11).2.1 (by decide) (by decide) (by decide),
   (readDispatch_validation (some 100) 100 50 60).2.2.1 (by decide) (by decide) (by decide)
     (by decide),
   (readDispatch_validation (some 100) 100 0 50).2.2.2 (by decide) (by decide) (by decide)
     (by decide)⟩

/-- C8: `CachedFilelike#open` sizes the byte cache from the file size
reported by the reader: a cache budget smaller than the file yields a
block cache of `ceil(cacheSizeInBytes / CACHE_BLOCK_SIZE) + 2` blocks of
10 MiB, while a budget at least the file size (including the default
`Infinity`) yields one unblocked buffer spanning the whole file. -/
theorem openBuffer_sizing (c size : Nat) :
    (c < size → openBuffer (some c) size =
      VirtualBufferConfig.blocked size CACHE_BLOCK_SIZE
        (Nat.ceil ((c : ℚ) / (CACHE_BLOCK_SIZE : ℚ)) + 2))
  ∧ (size ≤ c → openBuffer (some c) size = VirtualBufferConfig.whole size)
  ∧ openBuffer none size = VirtualBufferConfig.whole size := by
  refine ⟨?_, ?_, rfl⟩
  · intro hlt
    rw [ceil_div_blockSize]
    simp only [openBuffer, if_neg (by omega : ¬ size ≤ c)]
  · intro hle
    simp only [openBuffer, if_pos hle]

/-- C8 witness: a 25 MiB budget on a 100 MiB file yields
`ceil(25/10) + 2 = 5` blocks; a budget equal to the file size yields the
unblocked whole-file buffer. -/
theorem openBuffer_sizing_witness :
    openBuffer (some (1024 * 1024 * 25)) (1024 * 1024 * 100) =
      VirtualBufferConfig.blocked (1024 * 1024 * 100) CACHE_BLOCK_SIZE 5
  ∧ openBuffer (some (1024 * 1024 * 100)) (1024 * 1024 * 100) =
      VirtualBufferConfig.whole (1024 * 1024 * 100) := by
  constructor
  · have h := (openBuffer_sizing (1024 * 1024 * 25) (1024 * 1024 * 100)).1 (by norm_num)
    rw [h, ceil_div_blockSize]
    norm_num [CACHE_BLOCK_SIZE]
  · exact (openBuffer_sizing (1024 * 1024 * 100) (1024 * 1024 * 100)).2.1 (by norm_num)

/-- C6: without a `keepReconnectingCallback`, a stream error arriving less
than 100ms after a previous error is fatal — `_closed` is set and every
pending read request is rejected with the triggering error — while an
error with no recent predecessor is retried transparently (connection
destroyed and rebuilt, nothing rejected); with the callback configured,
every error is retried, the callback observes `true` on the first error
of a streak, and `false` as soon as data next arrives. -/
theorem cachedFilelike_errorPolicy (st : ReaderErrState) (now t : Int) :
    (st.keepReconnecting = false → st.lastErrorTime = some t → now - t < 100 →
      onStreamError st now =
        { closed := true, rejected := st.pending, retried := false,
          callbackArg := none, lastErrorTime := some t })
  ∧ (st.keepReconnecting = false → st.lastErrorTime = none →
      onStreamError st now =
        { closed := st.closed, rejected := [], retried := true,
          callbackArg := none, lastErrorTime := some now })
  ∧ (st.keepReconnecting = false → st.lastErrorTime = some t → 100 ≤ now - t →
      onStreamError st now =
        { closed := st.closed, rejected := [], retried := true,
          callbackArg := none, lastErrorTime := some now })
  ∧ (st.keepReconnecting = true →
      (onStreamError st now).retried = true
      ∧ (onStreamError st now).rejected = []
      ∧ (onStreamError st now).closed = st.closed
      ∧ (st.lastErrorTime = none → (onStreamError st now).callbackArg = some true)
      ∧ (st.lastErrorTime = some t → (onStreamError st now).callbackArg = none))
  ∧ (st.keepReconnecting = true → st.lastErrorTime = some t →
      onStreamData st = (some false, none)) := by
  refine ⟨?_, ?_, ?_, ?_, ?_⟩
  · intro hk hle hrecent
    simp [onStreamError, hk, hle, if_pos hrecent]
  · intro hk hle
    simp [onStreamError, hk, hle]
  · intro hk hle hfar
    simp [onStreamError, hk, hle, if_neg (by omega : ¬ (now - t < 100))]
  · intro hk
    refine ⟨by simp [onStreamError, hk], by simp [onStreamError, hk],
      by simp [onStreamError, hk], ?_, ?_⟩
    · intro hle; simp [onStreamError, hk, hle]
    · intro hle; simp [onStreamError, hk, hle]
  · intro hk hle
    simp [onStreamData, hle, hk]

/-- C6 witness: the concrete scenarios — double error at 50ms without the
callback is fatal for both pending requests; a first error at any time
retries; with the callback the first error reports `true` and data
afterwards reports `false`. -/
theorem cachedFilelike_errorPolicy_witness :
    onStreamError ⟨false, some 1000, [0, 1], false⟩ 1050 =
      ⟨true, [0, 1], false, none, some 1000⟩
  ∧ onStreamError ⟨false, none, [0], false⟩ 1000 = ⟨false, [], true, none, some 1000⟩
  ∧ (onStreamError ⟨true, none, [0], false⟩ 1000).callbackArg = some true
  ∧ onStreamData ⟨true, some 1000, [0], false⟩ = (some false, none) :=
  ⟨(cachedFilelike_errorPolicy _ 1050 1000).1 rfl rfl (by decide),
   (cachedFilelike_errorPolicy _ 1000 0).2.1 rfl rfl,
   ((cachedFilelike_errorPolicy _ 1000 0).2.2.2.1 rfl).2.2.2.1 rfl,
   (cachedFilelike_errorPolicy _ 0 1000).2.2.2.2 rfl rfl⟩

/-! ## Claims about the producer/consumer engine: concrete traces -/

/-- The state reached when the consumer abandons the iterator while the
producer is blocked in the stamp-horizon loop (source = one stamp at
t = 100s, `readAheadDuration` = 10s, start = 0): schedule
`[prod, brk, prod]` — the producer enqueues the stamp and blocks; the
caller breaks (aborted := true, `writeSignal.notifyAll()`); the woken
producer re-enqueues the stamp and blocks on `writeSignal` again. -/
def stampAbortDeadState : BuffState :=
  { source := []
    sourceThrows := false
    cache := [IterResult.stamp ⟨100, 0⟩, IterResult.stamp ⟨100, 0⟩]
    readHead := ⟨0, 0⟩
    readDone := false
    aborted := true
    prodPC := ProdPC.stampWait ⟨100, 0⟩
    consPC := ConsPC.stopping
    prodWoken := false
    consWoken := false
    pulled := [IterResult.stamp ⟨100, 0⟩]
    enqueued := [IterResult.stamp ⟨100, 0⟩, IterResult.stamp ⟨100, 0⟩]
    consumed := []
    dequeues := 0 }

/-- C3: the claim fails on the code.  The stamp-horizon `while` loop
(lines 119-127) does not test `this.aborted`, so a producer that is
blocked on `writeSignal` inside it when `stopProducer()` runs is woken,
enqueues the stamp once more — an enqueue after `aborted` was set — and
blocks on `writeSignal` again.  No notification can ever arrive
(`stopProducer` notifies only once and the consumer is awaiting the
producer promise), so the reached state is a deadlock: the producer never
returns, `stopProducer()` never resolves.  This theorem evaluates the
model at that failing input: after schedule `[prod, brk, prod]` the state
is `stampAbortDeadState`, in which `aborted` holds, a second copy of the
stamp was enqueued after the abort, the producer has not terminated, and
no task (producer, consumer, a second break, or the `stopProducer` await)
has an enabled step. -/
theorem stopProducer_stampWait_deadlock :
    runActs ⟨10, 0⟩ [Act.prod, Act.brk, Act.prod]
      (initState ⟨0, 0⟩ [IterResult.stamp ⟨100, 0⟩] false) = some stampAbortDeadState
  ∧ stampAbortDeadState.aborted = true
  ∧ stampAbortDeadState.enqueued.length = 2
  ∧ stampAbortDeadState.prodPC ≠ ProdPC.done
  ∧ producerStep ⟨10, 0⟩ stampAbortDeadState = none
  ∧ consumerStep stampAbortDeadState = none
  ∧ breakStep stampAbortDeadState = none
  ∧ stopDoneStep stampAbortDeadState = none := by
  refine ⟨by decide, rfl, rfl, by decide, rfl, rfl, by decide, by decide⟩

/-- Number of cached items whose time is strictly past the read-ahead
horizon `readHead + readAheadDuration`. -/
def pastHorizonCount (dur : RosTime) (s : BuffState) : Nat :=
  (s.cache.filter (fun r => 0 < RosTime.cmp r.time (addTime s.readHead dur))).length

/-- The read-ahead bound as claimed: in every reachable suspension state at
most one buffered item (the one-item slack) lies past
`readHead + readAheadDuration`. -/
def readAheadBoundClaim (dur start : RosTime) (src : List IterResult) : Prop :=
  ∀ s, Reachable dur (initState start src false) s → pastHorizonCount dur s ≤ 1

/-- The state refuting the one-item-slack read-ahead bound
(`readAheadDuration` = 10s, source = messages at t = 1, 50, 60s, start 0,
schedule `[prod, prod, cons, prod, prod]`): the producer batches t=1,
enqueues t=50 past the horizon and blocks; the consumer dequeues t=1
(readHead := 1); the woken producer pulls t=60, which it enqueues
unconditionally (line 131) before blocking again — leaving both t=50 and
t=60 buffered past the horizon 11s. -/
def twoPastHorizonState : BuffState :=
  { source := []
    sourceThrows := false
    cache := [IterResult.msgEvent ⟨50, 0⟩ 1, IterResult.msgEvent ⟨60, 0⟩ 2]
    readHead := ⟨1, 0⟩
    readDone := false
    aborted := false
    prodPC := ProdPC.batchWait
    consPC := ConsPC.running
    prodWoken := false
    consWoken := false
    pulled := [IterResult.msgEvent ⟨1, 0⟩ 0, IterResult.msgEvent ⟨50, 0⟩ 1,
               IterResult.msgEvent ⟨60, 0⟩ 2]
    enqueued := [IterResult.msgEvent ⟨1, 0⟩ 0, IterResult.msgEvent ⟨50, 0⟩ 1,
                 IterResult.msgEvent ⟨60, 0⟩ 2]
    consumed := [IterResult.msgEvent ⟨1, 0⟩ 0]
    dequeues := 1 }

/-- C1 counterexample: the one-item-slack read-ahead bound is false.  With
`readAheadDuration` = 10s and a (time-monotone) source emitting messages
at t = 1, 50, 60s, the reachable suspension state `twoPastHorizonState`
has two buffered items (t = 50 and t = 60) strictly past the horizon
`readHead + readAheadDuration` = 11s. -/
theorem readAheadBound_counterexample :
    ¬ readAheadBoundClaim ⟨10, 0⟩ ⟨0, 0⟩
      [IterResult.msgEvent ⟨1, 0⟩ 0, IterResult.msgEvent ⟨50, 0⟩ 1,
       IterResult.msgEvent ⟨60, 0⟩ 2] := by
  intro h
  have hreach : Reachable ⟨10, 0⟩
      (initState ⟨0, 0⟩ [IterResult.msgEvent ⟨1, 0⟩ 0, IterResult.msgEvent ⟨50, 0⟩ 1,
        IterResult.msgEvent ⟨60, 0⟩ 2] false) twoPastHorizonState :=
    runActs_reachable _ _ [Act.prod, Act.prod, Act.cons, Act.prod, Act.prod] _ (by decide)
  exact absurd (h twoPastHorizonState hreach) (by decide)


/-- C1 as amended: every producer step that enqueues a result whose time
is strictly past the current horizon `readHead + readAheadDuration`
leaves the producer blocked on `writeSignal` (stamp-horizon wait or batch
wait), so at most one past-horizon item is added per producer wake-up.
The stated one-item-slack bound on the whole cache does not hold:
previously buffered past-horizon items may remain queued while one more
is added (`readAheadBound_counterexample`). -/
theorem pastHorizonEnqueue_blocks (dur : RosTime) (s s1 : BuffState) (r : IterResult)
    (hstep : producerStep dur s = some s1)
    (henq : s1.enqueued = s.enqueued ++ [r])
    (hpast : 0 < RosTime.cmp r.time (addTime s.readHead dur)) :
    s1.prodPC.waiting = true := by
  cases hpc : s.prodPC with
  | awaitNext =>
    cases hsrc : s.source with
    | nil =>
      simp only [producerStep, hpc, hsrc] at hstep
      cases hstep
      simp [producerFinally] at henq
    | cons r0 rest =>
      by_cases hab : s.aborted = true
      · simp only [producerStep, hpc, hsrc] at hstep
        simp only [hab, if_pos] at hstep
        cases hstep
        simp [producerFinally] at henq
      · cases r0 with
        | stamp st =>
          by_cases hcmp : 0 ≤ RosTime.cmp st (addTime s.readHead dur)
          · simp only [producerStep, hpc, hsrc] at hstep
            simp only [hab, if_neg, if_pos hcmp, reduceCtorEq, Bool.false_eq_true,
              if_false] at hstep
            cases hstep
            rfl
          · simp only [producerStep, hpc, hsrc] at hstep
            simp only [hab, Bool.false_eq_true, if_false, if_neg hcmp] at hstep
            simp [enqueueNotify] at hstep
            cases hstep
            rfl
        | msgEvent t id =>
          by_cases hcmp : RosTime.cmp t (addTime s.readHead dur) ≤ 0
          · simp only [producerStep, hpc, hsrc] at hstep
            simp only [hab, Bool.false_eq_true, if_false, if_pos hcmp] at hstep
            cases hstep
            simp [enqueueNotify] at henq
            rw [← henq] at hpast
            simp [IterResult.time] at hpast
            omega
          · simp only [producerStep, hpc, hsrc] at hstep
            simp only [hab, Bool.false_eq_true, if_false, if_neg hcmp] at hstep
            simp [enqueueNotify] at hstep
            cases hstep
            rfl
  | stampWait st =>
    by_cases hw : s.prodWoken = true
    · by_cases hcmp : 0 ≤ RosTime.cmp st (addTime s.readHead dur)
      · simp only [producerStep, hpc, hw, if_pos hcmp, if_true] at hstep
        cases hstep
        rfl
      · simp only [producerStep, hpc, hw, if_neg hcmp, if_true] at hstep
        cases hstep
        simp at henq
    · simp [producerStep, hpc, hw] at hstep
  | batchWait =>
    by_cases hw : s.prodWoken = true
    · simp only [producerStep, hpc, hw, if_true] at hstep
      cases hstep
      simp at henq
    · simp [producerStep, hpc, hw] at hstep
  | done => simp [producerStep, hpc] at hstep

/-- C1 witness for the amended claim: the producer step out of the state
just before `twoPastHorizonState` enqueues the message at t = 60s (past
the horizon 11s) and ends blocked on `writeSignal`. -/
theorem pastHorizonEnqueue_blocks_witness : twoPastHorizonState.prodPC.waiting = true :=
  pastHorizonEnqueue_blocks ⟨10, 0⟩
    { source := [IterResult.msgEvent ⟨60, 0⟩ 2]
      sourceThrows := false
      cache := [IterResult.msgEvent ⟨50, 0⟩ 1]
      readHead := ⟨1, 0⟩
      readDone := false
      aborted := false
      prodPC := ProdPC.awaitNext
      consPC := ConsPC.running
      prodWoken := false
      consWoken := false
      pulled := [IterResult.msgEvent ⟨1, 0⟩ 0, IterResult.msgEvent ⟨50, 0⟩ 1]
      enqueued := [IterResult.msgEvent ⟨1, 0⟩ 0, IterResult.msgEvent ⟨50, 0⟩ 1]
      consumed := [IterResult.msgEvent ⟨1, 0⟩ 0]
      dequeues := 1 }
    twoPastHorizonState (IterResult.msgEvent ⟨60, 0⟩ 2)
    (by decide) (by decide) (by decide)

/-- C9: the stamp-horizon cycle.  A woken producer holding a stamp at or
past the recomputed horizon `readHead + readAheadDuration` enqueues the
identical stamp once more, notifies `readSignal`, and blocks on
`writeSignal` again; once the stamp falls below the horizon it pulls the
next result without enqueueing.  A stamp pulled at or past the horizon
enters this cycle by enqueueing and blocking.  Consequently the consumer
can dequeue the identical stamp several times in a row, as the concrete
run in the last conjunct shows (source = message at 1s then stamp at 30s,
read-ahead 10s: the yielded sequence ends `stamp 30s, stamp 30s`). -/
theorem stampHorizon_cycle (dur : RosTime) (s : BuffState) (st : RosTime) :
    (s.prodPC = ProdPC.stampWait st → s.prodWoken = true →
      (0 ≤ RosTime.cmp st (addTime s.readHead dur) →
        producerStep dur s =
          some { enqueueNotify (IterResult.stamp st) { s with prodWoken := false } with prodPC := ProdPC.stampWait st })
      ∧ (RosTime.cmp st (addTime s.readHead dur) < 0 →
        producerStep dur s = some { s with prodWoken := false, prodPC := ProdPC.awaitNext }))
  ∧ (∀ rest, s.prodPC = ProdPC.awaitNext → s.aborted = false →
      s.source = IterResult.stamp st :: rest →
      0 ≤ RosTime.cmp st (addTime s.readHead dur) →
      producerStep dur s =
        some { enqueueNotify (IterResult.stamp st) { s with source := rest, pulled := s.pulled ++ [IterResult.stamp st] } with prodPC := ProdPC.stampWait st })
  ∧ (runActs ⟨10, 0⟩ [Act.prod, Act.prod, Act.cons, Act.prod, Act.cons, Act.cons]
        (initState ⟨0, 0⟩ [IterResult.msgEvent ⟨1, 0⟩ 0, IterResult.stamp ⟨30, 0⟩] false)).map
        BuffState.consumed =
      some [IterResult.msgEvent ⟨1, 0⟩ 0, IterResult.stamp ⟨30, 0⟩, IterResult.stamp ⟨30, 0⟩] := by
  refine ⟨?_, ?_, by decide⟩
  · intro h hw
    constructor
    · intro hcmp
      simp [producerStep, h, hw, if_pos hcmp]
    · intro hcmp
      simp [producerStep, h, hw, if_neg (by omega : ¬ 0 ≤ RosTime.cmp st (addTime s.readHead dur))]
  · intro rest h hab hsrc hcmp
    simp [producerStep, h, hsrc, hab, if_pos hcmp]

/-- C9 witness: one concrete cycle.  With the producer blocked in the
stamp-horizon loop on the 30s stamp, `readHead` = 1s and read-ahead 10s,
its woken step enqueues the identical stamp again and re-enters
`stampWait`. -/
theorem stampHorizon_cycle_witness :
    producerStep ⟨10, 0⟩
      { source := []
        sourceThrows := false
        cache := [IterResult.stamp ⟨30, 0⟩]
        readHead := ⟨1, 0⟩
        readDone := false
        aborted := false
        prodPC := ProdPC.stampWait ⟨30, 0⟩
        consPC := ConsPC.running
        prodWoken := true
        consWoken := false
        pulled := [IterResult.msgEvent ⟨1, 0⟩ 0, IterResult.stamp ⟨30, 0⟩]
        enqueued := [IterResult.msgEvent ⟨1, 0⟩ 0, IterResult.stamp ⟨30, 0⟩]
        consumed := [IterResult.msgEvent ⟨1, 0⟩ 0]
        dequeues := 1 } =
    some
      { source := []
        sourceThrows := false
        cache := [IterResult.stamp ⟨30, 0⟩, IterResult.stamp ⟨30, 0⟩]
        readHead := ⟨1, 0⟩
        readDone := false
        aborted := false
        prodPC := ProdPC.stampWait ⟨30, 0⟩
        consPC := ConsPC.running
        prodWoken := false
        consWoken := false
        pulled := [IterResult.msgEvent ⟨1, 0⟩ 0, IterResult.stamp ⟨30, 0⟩]
        enqueued := [IterResult.msgEvent ⟨1, 0⟩ 0, IterResult.stamp ⟨30, 0⟩,
                     IterResult.stamp ⟨30, 0⟩]
        consumed := [IterResult.msgEvent ⟨1, 0⟩ 0]
        dequeues := 1 } :=
  ((stampHorizon_cycle ⟨10, 0⟩ _ ⟨30, 0⟩).1 rfl rfl).1 (by decide)
/-- The possible transitions, by shape: one constructor per atomic step of
the session's tasks, with the exact state update each performs. -/
inductive Step (dur : RosTime) : BuffState → BuffState → Prop where
  | sourceEnd (s : BuffState)
      (h1 : s.prodPC = ProdPC.awaitNext) (h2 : s.source = []) :
      Step dur s (producerFinally s)
  | abortReturn (s : BuffState) (r : IterResult) (rest : List IterResult)
      (h1 : s.prodPC = ProdPC.awaitNext) (h2 : s.source = r :: rest)
      (h3 : s.aborted = true) :
      Step dur s (producerFinally { s with source := rest, pulled := s.pulled ++ [r] })
  | stampEnter (s : BuffState) (st : RosTime) (rest : List IterResult)
      (h1 : s.prodPC = ProdPC.awaitNext) (h2 : s.source = IterResult.stamp st :: rest)
      (h3 : s.aborted = false) (h4 : 0 ≤ RosTime.cmp st (addTime s.readHead dur)) :
      Step dur s { enqueueNotify (IterResult.stamp st) { s with source := rest, pulled := s.pulled ++ [IterResult.stamp st] } with prodPC := ProdPC.stampWait st }
  | stampBelow (s : BuffState) (st : RosTime) (rest : List IterResult)
      (h1 : s.prodPC = ProdPC.awaitNext) (h2 : s.source = IterResult.stamp st :: rest)
      (h3 : s.aborted = false) (h4 : RosTime.cmp st (addTime s.readHead dur) < 0) :
      Step dur s { enqueueNotify (IterResult.stamp st) { s with source := rest, pulled := s.pulled ++ [IterResult.stamp st] } with prodPC := ProdPC.batchWait }
  | msgWithin (s : BuffState) (t : RosTime) (id : Nat) (rest : List IterResult)
      (h1 : s.prodPC = ProdPC.awaitNext) (h2 : s.source = IterResult.msgEvent t id :: rest)
      (h3 : s.aborted = false) (h4 : RosTime.cmp t (addTime s.readHead dur) ≤ 0) :
      Step dur s { enqueueNotify (IterResult.msgEvent t id) { s with source := rest, pulled := s.pulled ++ [IterResult.msgEvent t id] } with prodPC := ProdPC.awaitNext }
  | msgBeyond (s : BuffState) (t : RosTime) (id : Nat) (rest : List IterResult)
      (h1 : s.prodPC = ProdPC.awaitNext) (h2 : s.source = IterResult.msgEvent t id :: rest)
      (h3 : s.aborted = false) (h4 : 0 < RosTime.cmp t (addTime s.readHead dur)) :
      Step dur s { enqueueNotify (IterResult.msgEvent t id) { s with source := rest, pulled := s.pulled ++ [IterResult.msgEvent t id] } with prodPC := ProdPC.batchWait }
  | stampRepeat (s : BuffState) (st : RosTime)
      (h1 : s.prodPC = ProdPC.stampWait st) (h2 : s.prodWoken = true)
      (h3 : 0 ≤ RosTime.cmp st (addTime s.readHead dur)) :
      Step dur s { enqueueNotify (IterResult.stamp st) { s with prodWoken := false } with prodPC := ProdPC.stampWait st }
  | stampExit (s : BuffState) (st : RosTime)
      (h1 : s.prodPC = ProdPC.stampWait st) (h2 : s.prodWoken = true)
      (h3 : RosTime.cmp st (addTime s.readHead dur) < 0) :
      Step dur s { s with prodWoken := false, prodPC := ProdPC.awaitNext }
  | batchResume (s : BuffState)
      (h1 : s.prodPC = ProdPC.batchWait) (h2 : s.prodWoken = true) :
      Step dur s { s with prodWoken := false, prodPC := ProdPC.awaitNext }
  | consFinish (s : BuffState)
      (h1 : s.consPC = ConsPC.running) (h2 : s.cache = []) (h3 : s.readDone = true) :
      Step dur s { s with consPC := ConsPC.stopping, aborted := true, prodWoken := s.prodWoken || s.prodPC.waiting }
  | consWait (s : BuffState)
      (h1 : s.consPC = ConsPC.running) (h2 : s.cache = []) (h3 : s.readDone = false) :
      Step dur s { s with consPC := ConsPC.readWait }
  | consDequeue (s : BuffState) (item : IterResult) (rest : List IterResult)
      (h1 : s.consPC = ConsPC.running) (h2 : s.cache = item :: rest) :
      Step dur s { s with cache := rest, readHead := item.time, consumed := s.consumed ++ [item], dequeues := s.dequeues + 1, prodWoken := s.prodWoken || s.prodPC.waiting, consPC := ConsPC.running }
  | consResume (s : BuffState)
      (h1 : s.consPC = ConsPC.readWait) (h2 : s.consWoken = true) :
      Step dur s { s with consWoken := false, consPC := ConsPC.running }
  | consBreak (s : BuffState)
      (h1 : s.consPC = ConsPC.running) :
      Step dur s { s with consPC := ConsPC.stopping, aborted := true, prodWoken := s.prodWoken || s.prodPC.waiting }
  | stopResolve (s : BuffState)
      (h1 : s.consPC = ConsPC.stopping) (h2 : s.prodPC = ProdPC.done) :
      Step dur s { s with consPC := ConsPC.finished }

theorem step_inversion (dur : RosTime) (a : Act) (s s1 : BuffState)
    (h : stepAct dur a s = some s1) : Step dur s s1 := by
  obtain ⟨src, sthr, cache, rh, rd, ab, ppc, cpc, pw, cw, pl, enq, cns, dq⟩ := s
  cases a with
  | prod =>
    cases ppc with
    | awaitNext =>
      cases src with
      | nil =>
        simp only [stepAct, producerStep] at h
        cases h
        exact Step.sourceEnd _ rfl rfl
      | cons r0 rest =>
        cases ab with
        | true =>
          simp only [stepAct, producerStep, if_pos] at h
          cases h
          exact Step.abortReturn _ r0 rest rfl rfl rfl
        | false =>
          cases r0 with
          | stamp st =>
            by_cases hcmp : 0 ≤ RosTime.cmp st (addTime rh dur)
            · simp only [stepAct, producerStep, Bool.false_eq_true, if_false,
                if_pos hcmp] at h
              cases h
              exact Step.stampEnter _ st rest rfl rfl rfl hcmp
            · simp only [stepAct, producerStep, Bool.false_eq_true, if_false,
                if_neg hcmp] at h
              simp only [enqueueNotify] at h
              simp at h
              cases h
              exact Step.stampBelow _ st rest rfl rfl rfl (by show RosTime.cmp st (addTime rh dur) < 0; omega)
          | msgEvent t id =>
            by_cases hcmp : RosTime.cmp t (addTime rh dur) ≤ 0
            · simp only [stepAct, producerStep, Bool.false_eq_true, if_false,
                if_pos hcmp] at h
              cases h
              exact Step.msgWithin _ t id rest rfl rfl rfl hcmp
            · simp only [stepAct, producerStep, Bool.false_eq_true, if_false,
                if_neg hcmp] at h
              simp only [enqueueNotify] at h
              simp at h
              cases h
              exact Step.msgBeyond _ t id rest rfl rfl rfl (by show 0 < RosTime.cmp t (addTime rh dur); omega)
    | stampWait st =>
      cases pw with
      | false => simp [stepAct, producerStep] at h
      | true =>
        by_cases hcmp : 0 ≤ RosTime.cmp st (addTime rh dur)
        · simp only [stepAct, producerStep, if_true, if_pos hcmp] at h
          cases h
          exact Step.stampRepeat _ st rfl rfl hcmp
        · simp only [stepAct, producerStep, if_true, if_neg hcmp] at h
          cases h
          exact Step.stampExit _ st rfl rfl (by show RosTime.cmp st (addTime rh dur) < 0; omega)
    | batchWait =>
      cases pw with
      | false => simp [stepAct, producerStep] at h
      | true =>
        simp only [stepAct, producerStep, if_true] at h
        cases h
        exact Step.batchResume _ rfl rfl
    | done => simp [stepAct, producerStep] at h
  | cons =>
    cases cpc with
    | running =>
      cases cache with
      | nil =>
        cases rd with
        | true =>
          simp only [stepAct, consumerStep, if_pos] at h
          cases h
          exact Step.consFinish _ rfl rfl rfl
        | false =>
          simp only [stepAct, consumerStep, Bool.false_eq_true, if_false] at h
          cases h
          exact Step.consWait _ rfl rfl rfl
      | cons item rest =>
        cases item with
        | stamp st =>
          simp only [stepAct, consumerStep] at h
          cases h
          exact Step.consDequeue _ (IterResult.stamp st) rest rfl rfl
        | msgEvent t id =>
          simp only [stepAct, consumerStep] at h
          cases h
          exact Step.consDequeue _ (IterResult.msgEvent t id) rest rfl rfl
    | readWait =>
      cases cw with
      | false => simp [stepAct, consumerStep] at h
      | true =>
        simp only [stepAct, consumerStep, if_true] at h
        cases h
        exact Step.consResume _ rfl rfl
    | stopping => simp [stepAct, consumerStep] at h
    | finished => simp [stepAct, consumerStep] at h
  | brk =>
    cases cpc with
    | running =>
      simp only [stepAct, breakStep, if_pos] at h
      cases h
      exact Step.consBreak _ rfl
    | readWait => simp [stepAct, breakStep] at h
    | stopping => simp [stepAct, breakStep] at h
    | finished => simp [stepAct, breakStep] at h
  | stopDone =>
    cases cpc with
    | stopping =>
      cases ppc with
      | done =>
        simp only [stepAct, stopDoneStep] at h
        simp at h
        cases h
        exact Step.stopResolve _ rfl rfl
      | awaitNext => simp [stepAct, stopDoneStep] at h
      | stampWait st => simp [stepAct, stopDoneStep] at h
      | batchWait => simp [stepAct, stopDoneStep] at h
    | running => simp [stepAct, stopDoneStep] at h
    | readWait => simp [stepAct, stopDoneStep] at h
    | finished => simp [stepAct, stopDoneStep] at h

/-- Invariant for C5: once the producer promise has settled, `readDone`
holds, and a consumer that was suspended on `readSignal` at that moment
has a pending wake-up. -/
def DoneInv (s : BuffState) : Prop :=
  s.prodPC = ProdPC.done →
    s.readDone = true ∧ (s.consPC = ConsPC.readWait → s.consWoken = true)

theorem doneInv_preserved {dur : RosTime} {s s1 : BuffState}
    (hs : Step dur s s1) (hinv : DoneInv s) : DoneInv s1 := by
  cases hs <;>
    simp_all [DoneInv, producerFinally, enqueueNotify, ProdPC.waiting]

/-- C5: every exit of the producer loop — source exhausted (normally or by
throwing, `sourceThrows`), or the abort check after a pull — goes through
the `finally`, which sets `readDone` and notifies `readSignal`.  First
conjunct: any step on which the producer settles leaves `readDone = true`
and wakes a consumer that was suspended on `readSignal`.  Second conjunct:
in every reachable state with the producer settled, `readDone` holds and a
consumer suspended on `readSignal` holds a pending wake-up, so its next
step is enabled — it observes completion rather than waiting forever. -/
theorem producerExit_readDone_notify (dur start : RosTime) (src : List IterResult) (b : Bool) :
    (∀ (a : Act) (s s1 : BuffState), stepAct dur a s = some s1 →
      s.prodPC ≠ ProdPC.done → s1.prodPC = ProdPC.done →
      s1.readDone = true ∧ (s.consPC = ConsPC.readWait → s1.consWoken = true))
  ∧ (∀ s, Reachable dur (initState start src b) s → s.prodPC = ProdPC.done →
      s.readDone = true ∧
        (s.consPC = ConsPC.readWait → s.consWoken = true ∧ consumerStep s ≠ none)) := by
  constructor
  · intro a s s1 h hne hdone
    have hs := step_inversion dur a s s1 h
    cases hs <;> simp_all [producerFinally, enqueueNotify, ProdPC.waiting]
  · intro s hreach
    have hinv : DoneInv s := by
      induction hreach with
      | refl => intro hd; simp [initState] at hd
      | step hr hstep ih => exact doneInv_preserved (step_inversion _ _ _ _ hstep) ih
    intro hd
    obtain ⟨h1, h2⟩ := hinv hd
    refine ⟨h1, fun hc => ⟨h2 hc, ?_⟩⟩
    simp [consumerStep, hc, h2 hc]

/-- C5 witness: the producer step that exhausts an empty source while the
consumer is suspended on `readSignal` settles with `readDone` set and the
consumer woken. -/
theorem producerExit_readDone_notify_witness :
    (⟨[], false, [], ⟨0, 0⟩, true, false, ProdPC.done, ConsPC.readWait,
        false, true, [], [], [], 0⟩ : BuffState).readDone = true
  ∧ ((⟨[], false, [], ⟨0, 0⟩, false, false, ProdPC.awaitNext, ConsPC.readWait,
        false, false, [], [], [], 0⟩ : BuffState).consPC = ConsPC.readWait →
      (⟨[], false, [], ⟨0, 0⟩, true, false, ProdPC.done, ConsPC.readWait,
        false, true, [], [], [], 0⟩ : BuffState).consWoken = true) :=
  (producerExit_readDone_notify ⟨10, 0⟩ ⟨0, 0⟩ [] false).1 Act.prod
    ⟨[], false, [], ⟨0, 0⟩, false, false, ProdPC.awaitNext, ConsPC.readWait,
      false, false, [], [], [], 0⟩
    ⟨[], false, [], ⟨0, 0⟩, true, false, ProdPC.done, ConsPC.readWait,
      false, true, [], [], [], 0⟩
    (by decide) (by decide) (by decide)

/-- `expandCounts p ks` replaces the i-th element of `p` by `ks[i]`
consecutive copies of itself. -/
def expandCounts : List IterResult → List Nat → List IterResult
  | [], _ => []
  | _ :: _, [] => []
  | x :: xs, k :: ks => List.replicate k x ++ expandCounts xs ks

/-- `e` arises from `p` by repeating each element in place (0, 1 or more
copies), preserving order: the shape of the enqueued stream relative to
the pulled stream (stamps may be re-enqueued by the horizon loop; the
result pulled when the abort check fires is dropped). -/
def IsExpansion (p e : List IterResult) : Prop :=
  ∃ ks : List Nat, ks.length = p.length ∧ e = expandCounts p ks

theorem expandCounts_concat (p : List IterResult) (ks : List Nat) (h : ks.length = p.length)
    (r : IterResult) (k : Nat) :
    expandCounts (p ++ [r]) (ks ++ [k]) = expandCounts p ks ++ List.replicate k r := by
  induction p generalizing ks with
  | nil =>
    cases ks with
    | nil => simp [expandCounts]
    | cons k0 ks0 => simp at h
  | cons x xs ih =>
    cases ks with
    | nil => simp at h
    | cons k0 ks0 =>
      have h2 : ks0.length = xs.length := by simpa using h
      calc expandCounts ((x :: xs) ++ [r]) ((k0 :: ks0) ++ [k])
          = List.replicate k0 x ++ expandCounts (xs ++ [r]) (ks0 ++ [k]) := rfl
        _ = List.replicate k0 x ++ (expandCounts xs ks0 ++ List.replicate k r) := by
              rw [ih ks0 h2]
        _ = (List.replicate k0 x ++ expandCounts xs ks0) ++ List.replicate k r := by
              rw [List.append_assoc]
        _ = expandCounts (x :: xs) (k0 :: ks0) ++ List.replicate k r := rfl

theorem isExpansion_nil : IsExpansion [] [] := ⟨[], rfl, rfl⟩

theorem IsExpansion.skip {p e : List IterResult} (h : IsExpansion p e) (r : IterResult) :
    IsExpansion (p ++ [r]) e := by
  obtain ⟨ks, hlen, he⟩ := h
  refine ⟨ks ++ [0], by simp [hlen], ?_⟩
  rw [expandCounts_concat p ks hlen r 0]
  simp [he]

theorem IsExpansion.push {p e : List IterResult} (h : IsExpansion p e) (r : IterResult) :
    IsExpansion (p ++ [r]) (e ++ [r]) := by
  obtain ⟨ks, hlen, he⟩ := h
  refine ⟨ks ++ [1], by simp [hlen], ?_⟩
  rw [expandCounts_concat p ks hlen r 1]
  simp [he]

theorem IsExpansion.dup {p e : List IterResult} (h : IsExpansion p e) {r : IterResult}
    (hlast : p.getLast? = some r) : IsExpansion p (e ++ [r]) := by
  obtain ⟨ks, hlen, he⟩ := h
  have hpne : p ≠ [] := by
    intro hp
    subst hp
    simp at hlast
  have hksne : ks ≠ [] := by
    intro hk
    subst hk
    simp at hlen
    exact hpne (List.length_eq_zero.mp hlen.symm)
  have hp : p = p.dropLast ++ [r] := by
    conv_lhs => rw [← List.dropLast_append_getLast hpne]
    have : p.getLast hpne = r := by
      rw [List.getLast?_eq_getLast p hpne] at hlast
      exact Option.some.inj hlast
    rw [this]
  have hks : ks = ks.dropLast ++ [ks.getLast hksne] := by
    conv_lhs => rw [← List.dropLast_append_getLast hksne]
  have hdl : ks.dropLast.length = p.dropLast.length := by
    simp [List.length_dropLast, hlen]
  refine ⟨ks.dropLast ++ [ks.getLast hksne + 1], ?_, ?_⟩
  · rw [hp]
    simp [hdl]
  · have he2 : e = expandCounts p.dropLast ks.dropLast ++
        List.replicate (ks.getLast hksne) r := by
      rw [he]
      conv_lhs => rw [hp, hks]
      rw [expandCounts_concat p.dropLast ks.dropLast hdl r (ks.getLast hksne)]
    conv_rhs => rw [hp]
    rw [expandCounts_concat p.dropLast ks.dropLast hdl r (ks.getLast hksne + 1)]
    rw [he2]
    simp [List.append_assoc, List.replicate_succ']

theorem resLE_refl (a : IterResult) : resLE a a := RosTime.le_refl _

theorem pairwise_le_getLast :
    ∀ (l : List IterResult) (x : IterResult), l.Pairwise resLE →
      l.getLast? = some x → ∀ a ∈ l, resLE a x
  | [], x, _, hlast => by simp at hlast
  | [b], x, _, hlast => by
    simp at hlast
    subst hlast
    intro a ha
    simp at ha
    subst ha
    exact resLE_refl _
  | b :: c :: cs, x, hp, hlast => by
    have hlast2 : (c :: cs).getLast? = some x := by
      simpa using hlast
    have hp2 := List.pairwise_cons.mp hp
    have ih := pairwise_le_getLast (c :: cs) x hp2.2 hlast2
    intro a ha
    rcases List.mem_cons.mp ha with rfl | ha2
    · exact hp2.1 x (List.mem_of_mem_getLast? (by simp [hlast2, Option.mem_def]))
    · exact ih a ha2

/-- Invariant for C2 (for a time-monotone source): the pulled prefix plus
the remaining source is the whole source; the enqueue order is exactly
consumed-then-cache (the FIFO queue never reorders); the enqueued stream
followed by the unread source is pairwise time-ordered; in the
stamp-horizon wait, the held stamp is the last pulled and last enqueued
result; and the enqueued stream is an in-place expansion of the pulled
stream. -/
def Inv2 (src : List IterResult) (s : BuffState) : Prop :=
  s.pulled ++ s.source = src
  ∧ s.enqueued = s.consumed ++ s.cache
  ∧ (s.enqueued ++ s.source).Pairwise resLE
  ∧ (∀ st, s.prodPC = ProdPC.stampWait st →
      s.enqueued.getLast? = some (IterResult.stamp st)
      ∧ s.pulled.getLast? = some (IterResult.stamp st))
  ∧ IsExpansion s.pulled s.enqueued

theorem inv2_preserved {dur : RosTime} {src : List IterResult} {s s1 : BuffState}
    (hs : Step dur s s1) (hinv : Inv2 src s) : Inv2 src s1 := by
  obtain ⟨h1, h2, h3, h4, h5⟩ := hinv
  cases hs with
  | sourceEnd hp hsrc =>
    refine ⟨h1, h2, h3, ?_, h5⟩
    intro st2 hst
    exact absurd hst (by simp [producerFinally])
  | abortReturn r rest hp hsrc hab =>
    refine ⟨?_, h2, ?_, ?_, ?_⟩
    · show (s.pulled ++ [r]) ++ rest = src
      rw [List.append_assoc, List.singleton_append, ← hsrc]
      exact h1
    · show (s.enqueued ++ rest).Pairwise resLE
      refine h3.sublist ?_
      rw [hsrc]
      exact List.Sublist.append_left (List.sublist_cons_self r rest) s.enqueued
    · intro st2 hst
      exact absurd hst (by simp [producerFinally])
    · exact h5.skip r
  | stampEnter st rest hp hsrc hab hcmp =>
    refine ⟨?_, ?_, ?_, ?_, ?_⟩
    · show (s.pulled ++ [IterResult.stamp st]) ++ rest = src
      rw [List.append_assoc, List.singleton_append, ← hsrc]
      exact h1
    · show s.enqueued ++ [IterResult.stamp st] = s.consumed ++ (s.cache ++ [IterResult.stamp st])
      rw [← List.append_assoc, ← h2]
    · show ((s.enqueued ++ [IterResult.stamp st]) ++ rest).Pairwise resLE
      rw [List.append_assoc, List.singleton_append, ← hsrc]
      exact h3
    · intro st2 hst
      have hst2 : ProdPC.stampWait st = ProdPC.stampWait st2 := hst
      cases hst2
      exact ⟨List.getLast?_concat _, List.getLast?_concat _⟩
    · exact h5.push (IterResult.stamp st)
  | stampBelow st rest hp hsrc hab hcmp =>
    refine ⟨?_, ?_, ?_, ?_, ?_⟩
    · show (s.pulled ++ [IterResult.stamp st]) ++ rest = src
      rw [List.append_assoc, List.singleton_append, ← hsrc]
      exact h1
    · show s.enqueued ++ [IterResult.stamp st] = s.consumed ++ (s.cache ++ [IterResult.stamp st])
      rw [← List.append_assoc, ← h2]
    · show ((s.enqueued ++ [IterResult.stamp st]) ++ rest).Pairwise resLE
      rw [List.append_assoc, List.singleton_append, ← hsrc]
      exact h3
    · intro st2 hst
      exact absurd hst (by simp)
    · exact h5.push (IterResult.stamp st)
  | msgWithin t id rest hp hsrc hab hcmp =>
    refine ⟨?_, ?_, ?_, ?_, ?_⟩
    · show (s.pulled ++ [IterResult.msgEvent t id]) ++ rest = src
      rw [List.append_assoc, List.singleton_append, ← hsrc]
      exact h1
    · show s.enqueued ++ [IterResult.msgEvent t id] =
        s.consumed ++ (s.cache ++ [IterResult.msgEvent t id])
      rw [← List.append_assoc, ← h2]
    · show ((s.enqueued ++ [IterResult.msgEvent t id]) ++ rest).Pairwise resLE
      rw [List.append_assoc, List.singleton_append, ← hsrc]
      exact h3
    · intro st2 hst
      exact absurd hst (by simp)
    · exact h5.push (IterResult.msgEvent t id)
  | msgBeyond t id rest hp hsrc hab hcmp =>
    refine ⟨?_, ?_, ?_, ?_, ?_⟩
    · show (s.pulled ++ [IterResult.msgEvent t id]) ++ rest = src
      rw [List.append_assoc, List.singleton_append, ← hsrc]
      exact h1
    · show s.enqueued ++ [IterResult.msgEvent t id] =
        s.consumed ++ (s.cache ++ [IterResult.msgEvent t id])
      rw [← List.append_assoc, ← h2]
    · show ((s.enqueued ++ [IterResult.msgEvent t id]) ++ rest).Pairwise resLE
      rw [List.append_assoc, List.singleton_append, ← hsrc]
      exact h3
    · intro st2 hst
      exact absurd hst (by simp)
    · exact h5.push (IterResult.msgEvent t id)
  | stampRepeat st hp hw hcmp =>
    obtain ⟨hqlast, hplast⟩ := h4 st hp
    obtain ⟨hpe, hps, hcross⟩ := List.pairwise_append.mp h3
    have hmem : IterResult.stamp st ∈ s.enqueued :=
      List.mem_of_mem_getLast? (by simp [hqlast, Option.mem_def])
    refine ⟨h1, ?_, ?_, ?_, ?_⟩
    · show s.enqueued ++ [IterResult.stamp st] = s.consumed ++ (s.cache ++ [IterResult.stamp st])
      rw [← List.append_assoc, ← h2]
    · show ((s.enqueued ++ [IterResult.stamp st]) ++ s.source).Pairwise resLE
      refine List.pairwise_append.mpr ⟨?_, hps, ?_⟩
      · refine List.pairwise_append.mpr ⟨hpe, by simp, ?_⟩
        intro a ha y hy
        simp only [List.mem_singleton] at hy
        subst hy
        exact pairwise_le_getLast s.enqueued _ hpe hqlast a ha
      · intro a ha y hy
        rcases List.mem_append.mp ha with ha2 | ha2
        · exact hcross a ha2 y hy
        · simp only [List.mem_singleton] at ha2
          subst ha2
          exact hcross _ hmem y hy
    · intro st2 hst
      have hst2 : ProdPC.stampWait st = ProdPC.stampWait st2 := hst
      cases hst2
      exact ⟨List.getLast?_concat _, hplast⟩
    · exact h5.dup hplast
  | stampExit st hp hw hcmp =>
    refine ⟨h1, h2, h3, ?_, h5⟩
    intro st2 hst
    exact absurd hst (by simp)
  | batchResume hp hw =>
    refine ⟨h1, h2, h3, ?_, h5⟩
    intro st2 hst
    exact absurd hst (by simp)
  | consFinish hc hcache hrd =>
    exact ⟨h1, h2, h3, h4, h5⟩
  | consWait hc hcache hrd =>
    exact ⟨h1, h2, h3, h4, h5⟩
  | consDequeue item rest hc hcache =>
    refine ⟨h1, ?_, h3, h4, h5⟩
    show s.enqueued = (s.consumed ++ [item]) ++ rest
    rw [List.append_assoc, List.singleton_append, ← hcache]
    exact h2
  | consResume hc hw =>
    exact ⟨h1, h2, h3, h4, h5⟩
  | consBreak hc =>
    exact ⟨h1, h2, h3, h4, h5⟩
  | stopResolve hc hp =>
    exact ⟨h1, h2, h3, h4, h5⟩

theorem inv2_init (start : RosTime) (src : List IterResult) (b : Bool)
    (hsrc : src.Pairwise resLE) : Inv2 src (initState start src b) := by
  refine ⟨by simp [initState], by simp [initState], by simpa [initState] using hsrc, ?_,
    by simpa [initState] using isExpansion_nil⟩
  intro st2 hst
  exact absurd hst (by simp [initState])

/-- C2: if the wrapped source emits results in non-decreasing time order,
then in every reachable state of a `messageIterator` session the yielded
results are in non-decreasing time order, the yielded sequence followed by
the still-buffered queue is exactly the enqueue order (the FIFO cache
never reorders), and the enqueue order is the pulled prefix of the source
with items repeated in place only (stamps repeated by the horizon loop) —
the order of distinct results is exactly the source's emission order. -/
theorem bufferedIterator_fifo_monotone (dur start : RosTime) (src : List IterResult)
    (b : Bool) (s : BuffState)
    (hsrc : src.Pairwise resLE)
    (hreach : Reachable dur (initState start src b) s) :
    s.consumed.Pairwise resLE
  ∧ s.enqueued = s.consumed ++ s.cache
  ∧ IsExpansion s.pulled s.enqueued
  ∧ s.pulled ++ s.source = src := by
  have hinv : Inv2 src s := by
    induction hreach with
    | refl => exact inv2_init start src b hsrc
    | step hr hstep ih => exact inv2_preserved (step_inversion _ _ _ _ hstep) ih
  obtain ⟨h1, h2, h3, h4, h5⟩ := hinv
  refine ⟨?_, h2, h5, h1⟩
  have h3b : ((s.consumed ++ s.cache) ++ s.source).Pairwise resLE := by
    rw [← h2]
    exact h3
  refine h3b.sublist ?_
  rw [List.append_assoc]
  exact List.sublist_append_left _ _

/-- C2 witness: the run of the C9 scenario (monotone source: message at
1s, stamp at 30s).  After six steps the yielded sequence is monotone, the
queue is in enqueue order, and the enqueued stream expands the pulled
prefix. -/
theorem bufferedIterator_fifo_monotone_witness :
    (⟨[], false, [], ⟨30, 0⟩, false, false, ProdPC.stampWait ⟨30, 0⟩, ConsPC.running,
        true, false,
        [IterResult.msgEvent ⟨1, 0⟩ 0, IterResult.stamp ⟨30, 0⟩],
        [IterResult.msgEvent ⟨1, 0⟩ 0, IterResult.stamp ⟨30, 0⟩, IterResult.stamp ⟨30, 0⟩],
        [IterResult.msgEvent ⟨1, 0⟩ 0, IterResult.stamp ⟨30, 0⟩, IterResult.stamp ⟨30, 0⟩],
        3⟩ : BuffState).consumed.Pairwise resLE
  ∧ (⟨[], false, [], ⟨30, 0⟩, false, false, ProdPC.stampWait ⟨30, 0⟩, ConsPC.running,
        true, false,
        [IterResult.msgEvent ⟨1, 0⟩ 0, IterResult.stamp ⟨30, 0⟩],
        [IterResult.msgEvent ⟨1, 0⟩ 0, IterResult.stamp ⟨30, 0⟩, IterResult.stamp ⟨30, 0⟩],
        [IterResult.msgEvent ⟨1, 0⟩ 0, IterResult.stamp ⟨30, 0⟩, IterResult.stamp ⟨30, 0⟩],
        3⟩ : BuffState).enqueued =
      (⟨[], false, [], ⟨30, 0⟩, false, false, ProdPC.stampWait ⟨30, 0⟩, ConsPC.running,
        true, false,
        [IterResult.msgEvent ⟨1, 0⟩ 0, IterResult.stamp ⟨30, 0⟩],
        [IterResult.msgEvent ⟨1, 0⟩ 0, IterResult.stamp ⟨30, 0⟩, IterResult.stamp ⟨30, 0⟩],
        [IterResult.msgEvent ⟨1, 0⟩ 0, IterResult.stamp ⟨30, 0⟩, IterResult.stamp ⟨30, 0⟩],
        3⟩ : BuffState).consumed ++
      (⟨[], false, [], ⟨30, 0⟩, false, false, ProdPC.stampWait ⟨30, 0⟩, ConsPC.running,
        true, false,
        [IterResult.msgEvent ⟨1, 0⟩ 0, IterResult.stamp ⟨30, 0⟩],
        [IterResult.msgEvent ⟨1, 0⟩ 0, IterResult.stamp ⟨30, 0⟩, IterResult.stamp ⟨30, 0⟩],
        [IterResult.msgEvent ⟨1, 0⟩ 0, IterResult.stamp ⟨30, 0⟩, IterResult.stamp ⟨30, 0⟩],
        3⟩ : BuffState).cache
  ∧ IsExpansion
      [IterResult.msgEvent ⟨1, 0⟩ 0, IterResult.stamp ⟨30, 0⟩]
      [IterResult.msgEvent ⟨1, 0⟩ 0, IterResult.stamp ⟨30, 0⟩, IterResult.stamp ⟨30, 0⟩]
  ∧ ([IterResult.msgEvent ⟨1, 0⟩ 0, IterResult.stamp ⟨30, 0⟩] ++ ([] : List IterResult)) =
      [IterResult.msgEvent ⟨1, 0⟩ 0, IterResult.stamp ⟨30, 0⟩] :=
  bufferedIterator_fifo_monotone ⟨10, 0⟩ ⟨0, 0⟩
    [IterResult.msgEvent ⟨1, 0⟩ 0, IterResult.stamp ⟨30, 0⟩] false
    ⟨[], false, [], ⟨30, 0⟩, false, false, ProdPC.stampWait ⟨30, 0⟩, ConsPC.running,
      true, false,
      [IterResult.msgEvent ⟨1, 0⟩ 0, IterResult.stamp ⟨30, 0⟩],
      [IterResult.msgEvent ⟨1, 0⟩ 0, IterResult.stamp ⟨30, 0⟩, IterResult.stamp ⟨30, 0⟩],
      [IterResult.msgEvent ⟨1, 0⟩ 0, IterResult.stamp ⟨30, 0⟩, IterResult.stamp ⟨30, 0⟩],
      3⟩
    (by decide)
    (runActs_reachable ⟨10, 0⟩ _
      [Act.prod, Act.prod, Act.cons, Act.prod, Act.cons, Act.cons] _ (by decide))
